import Mathlib

/-!
# Verification of the healthcare-data-poc core

Shallow embedding of the generic versioned FHIR resource store
(`src/shared/base_service.py`) and the integration-engine message router
(`src/services/integration-engine/app/main.py`), with proofs of the spec's
testable properties about them.

Documents are modelled as a JSON value type; the Postgres-backed table
`fhir_resources` is modelled as a list of rows in insertion order; machine
interaction (UUID generation, wall-clock timestamps) enters as explicit
string parameters.
-/

deriving instance DecidableEq for Except

/-- A JSON value, as stored in the `data` JSONB column and sent in request
bodies. Numbers are modelled as integers (the documents the services store
use string and integer scalars only). -/
inductive Json where
  | null : Json
  | bool : Bool → Json
  | num : Int → Json
  | str : String → Json
  | arr : List Json → Json
  | obj : List (String × Json) → Json
deriving Repr, Inhabited

namespace Json

mutual

/-- Structural equality of JSON values (`==` on parsed JSON in Python). -/
def beq : Json → Json → Bool
  | .null, .null => true
  | .bool a, .bool b => a == b
  | .num a, .num b => a == b
  | .str a, .str b => a == b
  | .arr a, .arr b => beqList a b
  | .obj a, .obj b => beqObj a b
  | _, _ => false

def beqList : List Json → List Json → Bool
  | [], [] => true
  | a :: as, b :: bs => beq a b && beqList as bs
  | _, _ => false

def beqObj : List (String × Json) → List (String × Json) → Bool
  | [], [] => true
  | (ka, va) :: as, (kb, vb) :: bs => ka == kb && beq va vb && beqObj as bs
  | _, _ => false

end

mutual

theorem beq_eq_iff : ∀ a b : Json, beq a b = true ↔ a = b
  | .null, b => by cases b <;> simp [beq]
  | .bool a, b => by cases b <;> simp [beq]
  | .num a, b => by cases b <;> simp [beq]
  | .str a, b => by cases b <;> simp [beq]
  | .arr a, b => by
    cases b <;> simp [beq]
    exact beqList_eq_iff a _
  | .obj a, b => by
    cases b <;> simp [beq]
    exact beqObj_eq_iff a _

theorem beqList_eq_iff : ∀ a b : List Json, beqList a b = true ↔ a = b
  | [], b => by cases b <;> simp [beqList]
  | a :: as, b => by
    cases b with
    | nil => simp [beqList]
    | cons b bs =>
      simp only [beqList, Bool.and_eq_true, List.cons.injEq]
      exact and_congr (beq_eq_iff a b) (beqList_eq_iff as bs)

theorem beqObj_eq_iff : ∀ a b : List (String × Json), beqObj a b = true ↔ a = b
  | [], b => by cases b <;> simp [beqObj]
  | (ka, va) :: as, b => by
    cases b with
    | nil => simp [beqObj]
    | cons kb bs =>
      obtain ⟨kb, vb⟩ := kb
      simp only [beqObj, Bool.and_eq_true, List.cons.injEq, Prod.mk.injEq,
        beq_iff_eq, and_assoc]
      exact and_congr_right fun _ =>
        and_congr (beq_eq_iff va vb) (beqObj_eq_iff as bs)

end

instance : DecidableEq Json := fun a b =>
  decidable_of_iff (beq a b = true) (beq_eq_iff a b)

/-- `d.get("k")` on a Python dict (first binding wins; dicts built by the
services never hold a duplicate key). Non-object values have no keys. -/
def get? : Json → String → Option Json
  | .obj kvs, k => (kvs.find? (fun kv => kv.1 = k)).map (·.2)
  | _, _ => none

/-- `d["k"] = v` on a Python dict: replace the value in place when the key
is present, append the binding otherwise. On a non-object the embedding
returns the value unchanged (the services only assign into dicts). -/
def set : Json → String → Json → Json
  | .obj kvs, k, v =>
    if kvs.any (fun kv => kv.1 = k) then
      .obj (kvs.map (fun kv => if kv.1 = k then (k, v) else kv))
    else
      .obj (kvs ++ [(k, v)])
  | j, _, _ => j

/-- Python truthiness of a JSON value (`bool(v)`), used by
`data.get("id") or str(uuid.uuid4())` in `create_resource`. -/
def truthy : Json → Bool
  | .null => false
  | .bool b => b
  | .num n => n != 0
  | .str s => s != ""
  | .arr l => !l.isEmpty
  | .obj kvs => !kvs.isEmpty

/-- Whether the value is a JSON object (a Python dict after
`request.json()`). -/
def isObj : Json → Bool
  | .obj _ => true
  | _ => false

end Json

mutual

/-- PostgreSQL JSONB containment `a @> b` as issued by the
`.contains(...)` filters of `search_resources`: an object contains an
object when every binding of the right side is matched (recursively) by a
binding of the left; an array contains an array when every element of the
right side is contained in some element of the left; scalars contain only
equal scalars. (The top-level scalar-in-array special case of `@>` never
arises: every `.contains` argument in the source is an array literal.) -/
def jsonbContains : Json → Json → Bool
  | .obj a, .obj b => jsonbObjContains a b
  | .arr a, .arr b => jsonbArrContains a b
  | a, b => decide (a = b)

def jsonbObjContains (a : List (String × Json)) : List (String × Json) → Bool
  | [] => true
  | (k, v) :: rest => jsonbObjFind a k v && jsonbObjContains a rest

def jsonbObjFind : List (String × Json) → String → Json → Bool
  | [], _, _ => false
  | (k2, v2) :: rest, k, v => (k2 == k && jsonbContains v2 v) || jsonbObjFind rest k v

def jsonbArrContains : List Json → List Json → Bool
  | _, [] => true
  | a, e :: rest => jsonbArrExists a e && jsonbArrContains a rest

def jsonbArrExists : List Json → Json → Bool
  | [], _ => false
  | x :: rest, e => jsonbContains x e || jsonbArrExists rest e

end

/-! ## The generic FHIR resource store (`src/shared/base_service.py`) -/

/-- Errors a store operation can raise. `http` is fastapi's
`HTTPException(status_code, detail)`; `integrityError` is the database
rejecting `session.commit()` on a duplicate primary key; `dataTypeError`
is the database rejecting a non-string value bound to the `String(64)` id
column; `valueError` is Python's `int()` on a non-numeral version string;
`pyTypeError` is Python raising on a request body that is not a JSON
object (`data.get(...)` / `data[...] = ...` on a non-dict). -/
inductive ServiceError where
  | http (status : Nat) (detail : String)
  | integrityError
  | dataTypeError
  | valueError
  | pyTypeError
deriving DecidableEq, Repr

/-- One row of the `fhir_resources` table (class `FHIRResourceStore`).
The `created_at`/`updated_at` audit columns are never read back by any
endpoint and are omitted. -/
structure FHIRResourceStore where
  id : String
  resource_type : String
  version_id : String
  data : Json
deriving DecidableEq, Repr

/-- The `fhir_resources` table, in insertion order (the services query it
without an ORDER BY; Postgres returns the rows of this small
insert/update-only table in insertion order). -/
abbrev Store := List FHIRResourceStore

/-- The per-service configuration of `FHIRService.__init__`. -/
structure FHIRService where
  service_name : String
  supported_resources : List String
deriving DecidableEq, Repr

/-- Replace the first row accepted by `p` (the row `.first()` returned and
`session.commit()` wrote back). -/
def updateFirst (p : FHIRResourceStore → Bool)
    (f : FHIRResourceStore → FHIRResourceStore) : Store → Store
  | [] => []
  | r :: rs => if p r then f r :: rs else r :: updateFirst p f rs

/-- Remove the first row accepted by `p` (`session.delete` on the row
`.first()` returned). -/
def removeFirst (p : FHIRResourceStore → Bool) : Store → Store
  | [] => []
  | r :: rs => if p r then rs else r :: removeFirst p rs

/-- `data.get("id") or str(uuid.uuid4())`: the caller's id when truthy,
the generated UUID when the key is absent or its value falsy. A truthy
non-string id would be bound to the `String(64)` primary-key column and
rejected by the database. -/
def pyIdOr (data : Json) (freshUuid : String) : Except ServiceError String :=
  match data.get? "id" with
  | some (.str s) => if s ≠ "" then .ok s else .ok freshUuid
  | some v => if v.truthy then .error ServiceError.dataTypeError else .ok freshUuid
  | none => .ok freshUuid

/-- `FHIRService.create_resource`. `freshUuid` stands for `str(uuid.uuid4())`
and `now` for `datetime.utcnow().isoformat() + "Z"`; raised exceptions are
encoded as `Except.error`. -/
def create_resource (svc : FHIRService) (resource_type : String) (data : Json)
    (freshUuid now : String) (store : Store) : Except ServiceError (Store × Json) :=
  if resource_type ∉ svc.supported_resources then
    .error (.http 400 ("Resource type " ++ resource_type ++ " not supported"))
  else if !data.isObj then
    .error ServiceError.pyTypeError
  else
    match pyIdOr data freshUuid with
    | .error e => .error e
    | .ok resource_id =>
      let version_id := "1"
      let data := data.set "id" (.str resource_id)
      let data := data.set "resourceType" (.str resource_type)
      let data := data.set "meta"
        (.obj [("versionId", .str version_id), ("lastUpdated", .str now)])
      if store.any (fun r => r.id == resource_id) then
        .error ServiceError.integrityError
      else
        .ok (store ++ [⟨resource_id, resource_type, version_id, data⟩], data)

/-- `FHIRService.read_resource`. -/
def read_resource (resource_type resource_id : String) (store : Store) :
    Except ServiceError Json :=
  match store.find? (fun r => r.resource_type == resource_type && r.id == resource_id) with
  | some resource => .ok resource.data
  | none => .error (.http 404 (resource_type ++ "/" ++ resource_id ++ " not found"))

/-- Digit run of Python's `int(s)`: accumulate decimal digits, fail on any
other character. -/
def pyIntAux : List Char → Nat → Option Nat
  | [], acc => some acc
  | c :: cs, acc =>
    if c.isDigit then pyIntAux cs (acc * 10 + (c.toNat - '0'.toNat)) else none

/-- Python's `int(s)` as applied to the `version_id` column: an optional
sign followed by decimal digits, `ValueError` (`none`) otherwise. The
whitespace/underscore forms Python also accepts never occur in stored
versions and are not modelled. -/
def pyInt? (s : String) : Option Int :=
  match s.toList with
  | [] => none
  | '-' :: cs => if cs.isEmpty then none else (pyIntAux cs 0).map (fun n => -(n : Int))
  | '+' :: cs => if cs.isEmpty then none else (pyIntAux cs 0).map (fun n => (n : Int))
  | cs => (pyIntAux cs 0).map (fun n => (n : Int))

/-- `FHIRService.update_resource`. The version bump is Python's
`str(int(resource.version_id) + 1)`. -/
def update_resource (resource_type resource_id : String) (data : Json) (now : String)
    (store : Store) : Except ServiceError (Store × Json) :=
  match store.find? (fun r => r.resource_type == resource_type && r.id == resource_id) with
  | none => .error (.http 404 (resource_type ++ "/" ++ resource_id ++ " not found"))
  | some resource =>
    match pyInt? resource.version_id with
    | none => .error ServiceError.valueError
    | some prior =>
      if !data.isObj then
        .error ServiceError.pyTypeError
      else
        let new_version := toString (prior + 1)
        let data := data.set "id" (.str resource_id)
        let data := data.set "resourceType" (.str resource_type)
        let data := data.set "meta"
          (.obj [("versionId", .str new_version), ("lastUpdated", .str now)])
        .ok (updateFirst
          (fun r => r.resource_type == resource_type && r.id == resource_id)
          (fun r => { r with version_id := new_version, data := data }) store, data)

/-- `FHIRService.delete_resource`. -/
def delete_resource (resource_type resource_id : String) (store : Store) :
    Except ServiceError Store :=
  match store.find? (fun r => r.resource_type == resource_type && r.id == resource_id) with
  | some _ => .ok (removeFirst
      (fun r => r.resource_type == resource_type && r.id == resource_id) store)
  | none => .error (.http 404 (resource_type ++ "/" ++ resource_id ++ " not found"))

/-- `data["subject"]["reference"].astext`: the string at the JSONB path,
SQL NULL (`none`) when the path is missing or holds JSON null. A non-string
scalar at the path (never produced by the services) is not modelled. -/
def subjectReference (data : Json) : Option String :=
  match (data.get? "subject").bind (fun s => s.get? "reference") with
  | some (.str s) => some s
  | _ => none

/-- SQLAlchemy `column.contains(value)`, i.e. SQL `LIKE '%' || value || '%'`:
substring containment. LIKE metacharacters inside `value` are not modelled
(callers pass plain reference strings). -/
def likeContains (s value : String) : Bool :=
  decide (value.toList <:+: s.toList)

/-- The `if/elif` chain of `search_resources`: whether one recognized
search parameter accepts a document. An unrecognized name falls through
the chain and adds no filter. -/
def paramMatches (key value : String) (data : Json) : Bool :=
  if key == "patient" then
    subjectReference data == some ("Patient/" ++ value)
  else if key == "subject" then
    match subjectReference data with
    | some s => likeContains s value
    | none => false
  else if key == "status" then
    match data.get? "status" with
    | some (.str s) => s == value
    | _ => false
  else if key == "identifier" then
    match data.get? "identifier" with
    | some j => jsonbContains j (.arr [.obj [("value", .str value)]])
    | none => false
  else if key == "category" then
    match data.get? "category" with
    | some j => jsonbContains j (.arr [.obj [("coding", .arr [.obj [("code", .str value)]])]])
    | none => false
  else if key == "code" then
    match (data.get? "code").bind (fun c => c.get? "coding") with
    | some j => jsonbContains j (.arr [.obj [("code", .str value)]])
    | none => false
  else true

/-- Python's `key.startswith("_")`: the first character is an underscore.
Modelled on the character list so that concrete queries evaluate. -/
def startsWithUnderscore (key : String) : Bool :=
  match key.toList with
  | [] => false
  | c :: _ => c == '_'

/-- One query parameter's filter as applied by the `for key, value in
params.items()` loop: names starting with `_` and null values are skipped
before the `if/elif` chain runs. -/
def paramFilter (data : Json) (kv : String × Option String) : Bool :=
  if startsWithUnderscore kv.1 then true
  else match kv.2 with
    | none => true
    | some value => paramMatches kv.1 value data

/-- The search Bundle `search_resources` returns: `entry` holds
`(fullUrl, resource)` pairs. -/
structure SearchBundle where
  resourceType : String
  type : String
  total : Nat
  link : List (String × String)
  entry : List (String × Json)
deriving DecidableEq, Repr

/-- `FHIRService.search_resources`: filter by resource type and by every
recognized, non-null parameter; `total = query.count()` is taken before
`offset`/`limit` are applied to produce the page. -/
def search_resources (resource_type : String) (params : List (String × Option String))
    (limit offset : Nat) (store : Store) : SearchBundle :=
  let query := store.filter (fun r =>
    r.resource_type == resource_type && params.all (fun kv => paramFilter r.data kv))
  let total := query.length
  let resources := (query.drop offset).take limit
  { resourceType := "Bundle"
    type := "searchset"
    total := total
    link := [("self", "/fhir/r4/" ++ resource_type)]
    entry := resources.map (fun r => (resource_type ++ "/" ++ r.id, r.data)) }

/-- One entry of `CapabilityStatement.rest[0].resource`: `interaction` is
the list of interaction codes, `searchParam` the `(name, type)` pairs. -/
structure CapabilityResource where
  type : String
  interaction : List String
  versioning : String
  readHistory : Bool
  updateCreate : Bool
  conditionalCreate : Bool
  conditionalRead : String
  conditionalUpdate : Bool
  conditionalDelete : String
  searchParam : List (String × String)
deriving DecidableEq, Repr

/-- The CapabilityStatement document (`rest` has a single server-mode
entry, flattened here). -/
structure CapabilityStatement where
  resourceType : String
  id : String
  status : String
  date : String
  kind : String
  softwareName : String
  softwareVersion : String
  fhirVersion : String
  format : List String
  restMode : String
  restResource : List CapabilityResource
deriving DecidableEq, Repr

/-- `FHIRService.get_capability_statement`. -/
def get_capability_statement (svc : FHIRService) (now : String) : CapabilityStatement :=
  let resources := svc.supported_resources.map (fun rt =>
    { type := rt
      interaction := ["read", "vread", "update", "delete", "create", "search-type"]
      versioning := "versioned"
      readHistory := false
      updateCreate := true
      conditionalCreate := false
      conditionalRead := "not-supported"
      conditionalUpdate := false
      conditionalDelete := "not-supported"
      searchParam := [("_id", "token"), ("identifier", "token"),
        ("patient", "reference"), ("status", "token")] : CapabilityResource })
  { resourceType := "CapabilityStatement"
    id := svc.service_name ++ "-capability"
    status := "active"
    date := now
    kind := "instance"
    softwareName := "Healthcare POC - " ++ svc.service_name.toUpper
    softwareVersion := "1.0.0"
    fhirVersion := "4.0.1"
    format := ["json"]
    restMode := "server"
    restResource := resources }

/-! ## Event publishing and the service endpoints -/

/-- The CloudEvents envelope `publish_event` builds. -/
structure EventEnvelope where
  specversion : String
  type : String
  source : String
  id : String
  time : String
  datacontenttype : String
  data : Json
deriving DecidableEq, Repr

/-- The state a running service's create/update endpoints touch: the
resource table, the RabbitMQ channel — `none` when the broker was
unreachable at startup, because `setup()` catches the connection failure
and leaves `rabbitmq_channel = None` — and the events delivered to the
`healthcare.events` exchange so far (paired with their routing keys). -/
structure ServiceState where
  store : Store
  rabbitmq_channel : Option Unit
  published : List (String × EventEnvelope)
deriving DecidableEq, Repr

/-- `resource.get('resourceType')` as rendered into the event-type
f-string. The resources passed to `publish_event` are documents the store
just stamped, so the field is always a string; an absent field renders as
Python's `None`. -/
def resourceTypeText (resource : Json) : String :=
  match resource.get? "resourceType" with
  | some (.str s) => s
  | _ => "None"

/-- `resource.get('resourceType', 'unknown').lower()` for the routing key
(same caveat as `resourceTypeText`). -/
def resourceTypeLower (resource : Json) : String :=
  match resource.get? "resourceType" with
  | some (.str s) => s.toLower
  | _ => "unknown"

/-- `FHIRService.publish_event`: returns immediately when the channel is
absent (`if not self.rabbitmq_channel: return`); otherwise delivers the
envelope to the exchange. `eventUuid`/`now` stand for `str(uuid.uuid4())`
and `datetime.utcnow().isoformat() + "Z"`. -/
def publish_event (svc : FHIRService) (event_type : String) (resource : Json)
    (eventUuid now : String) (st : ServiceState) : ServiceState :=
  match st.rabbitmq_channel with
  | none => st
  | some _ =>
    let event : EventEnvelope :=
      { specversion := "1.0"
        type := "org.hl7.fhir.r4." ++ resourceTypeText resource ++ "." ++ event_type
        source := "/" ++ svc.service_name
        id := eventUuid
        time := now
        datacontenttype := "application/fhir+json"
        data := resource }
    let routing_key := svc.service_name ++ "." ++ resourceTypeLower resource ++ "." ++ event_type
    { st with published := st.published ++ [(routing_key, event)] }

/-- The `POST /fhir/r4/{resource_type}` handler of `create_fhir_app`:
store create, then publish the `created` event, then respond 201 with the
stored document. A store failure raises before any publish. -/
def create_endpoint (svc : FHIRService) (resource_type : String) (data : Json)
    (freshUuid eventUuid now : String) (st : ServiceState) :
    Except ServiceError (ServiceState × Json) :=
  match create_resource svc resource_type data freshUuid now st.store with
  | .error e => .error e
  | .ok (store, result) =>
    .ok (publish_event svc "created" result eventUuid now { st with store := store }, result)

/-- The `PUT /fhir/r4/{resource_type}/{resource_id}` handler: store
update, then publish the `updated` event, then respond with the stored
document. -/
def update_endpoint (svc : FHIRService) (resource_type resource_id : String)
    (data : Json) (eventUuid now : String) (st : ServiceState) :
    Except ServiceError (ServiceState × Json) :=
  match update_resource resource_type resource_id data now st.store with
  | .error e => .error e
  | .ok (store, result) =>
    .ok (publish_event svc "updated" result eventUuid now { st with store := store }, result)

/-! ## The integration engine (`src/services/integration-engine/app/main.py`) -/

/-- The startup routing table `ROUTING_RULES`, pattern → destinations. -/
def ROUTING_RULES : List (String × List String) :=
  [("pas.*.adt.*", ["ehr", "lis", "ris", "pharmacy", "billing"]),
   ("ehr.servicerequest.created", ["lis", "ris"]),
   ("lis.diagnosticreport.completed", ["ehr"]),
   ("ris.diagnosticreport.completed", ["ehr"]),
   ("pharmacy.medicationdispense.dispensed", ["ehr"]),
   ("billing.charge.posted", ["ehr"])]

/-- Python's `s.split(".")`: cut at every dot (`"".split(".") == [""]`),
modelled on the character list. -/
def pySplitDot (s : String) : List String :=
  (s.toList.splitOn '.').map List.asString

/-- `MessageRouter._matches_pattern`: same number of dot-segments and
every non-wildcard pattern segment equal. -/
def matches_pattern (routing_key pattern : String) : Bool :=
  let key_parts := pySplitDot routing_key
  let pattern_parts := pySplitDot pattern
  key_parts.length == pattern_parts.length &&
    (key_parts.zip pattern_parts).all (fun pp => pp.2 == "*" || pp.1 == pp.2)

/-- `MessageRouter._find_destinations`: the union over all matching rules'
destination lists. The source collects them in a Python `set` and returns
`list(...)` in unspecified order; modelled as a duplicate-free list. -/
def find_destinations (rules : List (String × List String)) (routing_key : String) :
    List String :=
  ((rules.filter (fun r => matches_pattern routing_key r.1)).foldl
    (fun acc r => acc ++ r.2) []).dedup

/-- One entry of the router's `message_log`. `destinations` is filled in
after matching; `error` only on the exception path. -/
structure LogEntry where
  timestamp : String
  routing_key : String
  message_type : Option Json
  source : Option Json
  id : Option Json
  destinations : List String
  status : String
  error : Option String
deriving DecidableEq, Repr

/-- `MessageRouter.stats`. -/
structure RouterStats where
  messages_received : Nat
  messages_routed : Nat
  errors : Nat
deriving DecidableEq, Repr

/-- The `MessageRouter` instance's mutable state. The Redis mirror of the
log (`lpush`/`ltrim`) lives outside the process and is not modelled. -/
structure MessageRouter where
  message_log : List LogEntry
  stats : RouterStats
deriving DecidableEq, Repr

/-- What the `try` of `process_message` observes from the forwarding loop:
`failure k e` means the `k`-th `_forward_message` call (0-based, `k` below
the number of destinations) raised an exception whose text is `e`;
`success` means no call raised. A `failure` index past the end of the
destination list means no exception occurred. -/
inductive ForwardOutcome where
  | success
  | failure (k : Nat) (e : String)
deriving DecidableEq, Repr

/-- `MessageRouter.process_message`: count the message as received, match
the routing rules, forward to each destination (counting each forward),
and append a log entry — status `completed`, or `error` with the
exception's text when a forward raised, in which case `errors` is
incremented and the remaining destinations are skipped. The log is then
capped to its most recent 1000 entries (`self.message_log[-1000:]`). -/
def process_message (rules : List (String × List String)) (routing_key : String)
    (message : Json) (now : String) (outcome : ForwardOutcome)
    (router : MessageRouter) : MessageRouter :=
  let stats := { router.stats with
    messages_received := router.stats.messages_received + 1 }
  let log_entry : LogEntry :=
    { timestamp := now
      routing_key := routing_key
      message_type := message.get? "type"
      source := message.get? "source"
      id := message.get? "id"
      destinations := []
      status := "processing"
      error := none }
  let destinations := find_destinations rules routing_key
  let log_entry := { log_entry with destinations := destinations }
  let (routed, errored) :=
    match outcome with
    | .success => (destinations.length, none)
    | .failure k e =>
      if k < destinations.length then (k, some e) else (destinations.length, none)
  let stats := { stats with messages_routed := stats.messages_routed + routed }
  let (log_entry, stats) :=
    match errored with
    | none => ({ log_entry with status := "completed" }, stats)
    | some e => ({ log_entry with status := "error", error := some e },
                 { stats with errors := stats.errors + 1 })
  let message_log := router.message_log ++ [log_entry]
  let message_log :=
    if message_log.length > 1000 then message_log.drop (message_log.length - 1000)
    else message_log
  { message_log := message_log, stats := stats }

/-! ## Helper lemmas -/

namespace Json

theorem isObj_set (d : Json) (k : String) (v : Json) : (d.set k v).isObj = d.isObj := by
  cases d <;> try rfl
  simp only [set]
  split <;> rfl

theorem find?_map_set (kvs : List (String × Json)) (k : String) (v : Json)
    (h : kvs.any (fun kv => kv.1 = k) = true) :
    (kvs.map (fun kv => if kv.1 = k then (k, v) else kv)).find?
      (fun kv => kv.1 = k) = some (k, v) := by
  induction kvs with
  | nil => simp at h
  | cons kv rest ih =>
    by_cases hk : kv.1 = k
    · simp [hk]
    · simp only [List.map_cons, if_neg hk]
      rw [List.find?_cons_of_neg _ (by simpa using hk)]
      exact ih (by simpa [hk] using h)

theorem find?_map_set_ne (kvs : List (String × Json)) (k k' : String) (v : Json)
    (h : k ≠ k') :
    (kvs.map (fun kv => if kv.1 = k then (k, v) else kv)).find?
      (fun kv => kv.1 = k') = kvs.find? (fun kv => kv.1 = k') := by
  induction kvs with
  | nil => rfl
  | cons kv rest ih =>
    by_cases hk : kv.1 = k
    · simp only [List.map_cons, if_pos hk]
      rw [List.find?_cons_of_neg _ (by simpa using h),
        List.find?_cons_of_neg _ (by simp [hk, h]), ih]
    · simp only [List.map_cons, if_neg hk]
      by_cases hk' : kv.1 = k'
      · rw [List.find?_cons_of_pos _ (by simpa using hk'),
          List.find?_cons_of_pos _ (by simpa using hk')]
      · rw [List.find?_cons_of_neg _ (by simpa using hk'),
          List.find?_cons_of_neg _ (by simpa using hk'), ih]

theorem get?_set_self (d : Json) (h : d.isObj = true) (k : String) (v : Json) :
    (d.set k v).get? k = some v := by
  cases d <;> simp [isObj] at h
  case obj kvs =>
  simp only [set]
  split
  case isTrue hany =>
    simp only [get?]
    rw [find?_map_set kvs k v hany]
    rfl
  case isFalse hany =>
    simp only [get?, List.find?_append]
    rw [List.find?_eq_none.2 (fun kv hkv => by
      simp only [decide_eq_true_eq]
      intro hkk
      exact hany (List.any_eq_true.2 ⟨kv, hkv, by simp [hkk]⟩))]
    simp [List.find?]

theorem get?_set_ne (d : Json) (k k' : String) (v : Json) (h : k ≠ k') :
    (d.set k v).get? k' = d.get? k' := by
  cases d <;> try rfl
  case obj kvs =>
  simp only [set]
  split
  case isTrue hany =>
    simp only [get?, find?_map_set_ne kvs k k' v h]
  case isFalse hany =>
    simp only [get?, List.find?_append]
    have : List.find? (fun kv => decide (kv.1 = k')) [(k, v)] = none := by
      simp [List.find?, h]
    rw [this, Option.or_none]

end Json

theorem find?_append_of_none {α} (p : α → Bool) {l1 : List α} (l2 : List α)
    (h : l1.find? p = none) : (l1 ++ l2).find? p = l2.find? p := by
  simp [List.find?_append, h]

theorem find?_updateFirst_self (p : FHIRResourceStore → Bool)
    (f : FHIRResourceStore → FHIRResourceStore) (store : Store)
    (row : FHIRResourceStore) (hfind : store.find? p = some row)
    (hf : p (f row) = true) : (updateFirst p f store).find? p = some (f row) := by
  induction store with
  | nil => simp at hfind
  | cons r rs ih =>
    by_cases hr : p r
    · rw [List.find?_cons_of_pos _ hr] at hfind
      obtain rfl : r = row := by simpa using hfind
      simp [updateFirst, hr, List.find?_cons_of_pos _ hf]
    · rw [List.find?_cons_of_neg _ hr] at hfind
      simp only [updateFirst, if_neg hr]
      rw [List.find?_cons_of_neg _ hr]
      exact ih hfind


/-- A fully determined router log entry (the dict literal of
`process_message` with `destinations`, `status` and `error` filled in). -/
def mkLogEntry (routing_key : String) (message : Json) (now : String)
    (destinations : List String) (status : String) (error : Option String) : LogEntry :=
  { timestamp := now
    routing_key := routing_key
    message_type := message.get? "type"
    source := message.get? "source"
    id := message.get? "id"
    destinations := destinations
    status := status
    error := error }

/-- A concrete input document used by the witnesses below. -/
def sampleDoc : Json := .obj [("name", .str "Ann")]

/-- The document the store makes of `sampleDoc` on create with generated
UUID `"u1"` at time `"T"`. -/
def sampleStored : Json := .obj [("name", .str "Ann"), ("id", .str "u1"),
  ("resourceType", .str "Patient"),
  ("meta", .obj [("versionId", .str "1"), ("lastUpdated", .str "T")])]

/-- A concrete replacement document used by the update witness. -/
def sampleDoc2 : Json := .obj [("gender", .str "F")]

/-- The document the store makes of `sampleDoc2` on update of
`Patient/u1` at time `"T2"`. -/
def sampleStored2 : Json := .obj [("gender", .str "F"), ("id", .str "u1"),
  ("resourceType", .str "Patient"),
  ("meta", .obj [("versionId", .str "2"), ("lastUpdated", .str "T2")])]

/-! ## Supporting lemmas for the claims -/

theorem paramFilter_eq_true_iff (d : Json) (kv : String × Option String) :
    paramFilter d kv = true ↔
      (startsWithUnderscore kv.1 = false → ∀ v, kv.2 = some v → paramMatches kv.1 v d = true) := by
  unfold paramFilter
  by_cases hs : startsWithUnderscore kv.1
  · simp [hs]
  · cases hv : kv.2 with
    | none => simp [hs, hv]
    | some v =>
      simp only [Bool.not_eq_true] at hs
      simp [hs, hv]

theorem mem_foldl_append {α β : Type} (f : β → List α) (l : List β) (init : List α) (x : α) :
    x ∈ l.foldl (fun acc r => acc ++ f r) init ↔ x ∈ init ∨ ∃ r ∈ l, x ∈ f r := by
  induction l generalizing init with
  | nil => simp
  | cons r rs ih =>
    simp only [List.foldl_cons, ih, List.mem_append, List.mem_cons]
    constructor
    · rintro (⟨hx | hx⟩ | ⟨r', hr', hx⟩)
      · exact Or.inl hx
      · exact Or.inr ⟨r, Or.inl rfl, hx⟩
      · exact Or.inr ⟨r', Or.inr hr', hx⟩
    · rintro (hx | ⟨r', hr' | hr', hx⟩)
      · exact Or.inl (Or.inl hx)
      · exact Or.inl (Or.inr (hr' ▸ hx))
      · exact Or.inr ⟨r', hr', hx⟩

theorem append_cap_eq_drop (l : List LogEntry) (e : LogEntry) :
    (if (l ++ [e]).length > 1000 then (l ++ [e]).drop ((l ++ [e]).length - 1000)
     else l ++ [e]) = (l ++ [e]).drop ((l.length + 1) - 1000) := by
  simp only [List.length_append, List.length_singleton]
  by_cases h : l.length + 1 > 1000
  · rw [if_pos h]
  · rw [if_neg h]
    have h0 : l.length + 1 - 1000 = 0 := by omega
    rw [h0, List.drop_zero]

theorem process_message_log_shape (rules : List (String × List String))
    (routing_key : String) (message : Json) (now : String)
    (outcome : ForwardOutcome) (router : MessageRouter) :
    ∃ entry : LogEntry,
      (process_message rules routing_key message now outcome router).message_log =
        (router.message_log ++ [entry]).drop ((router.message_log.length + 1) - 1000) := by
  cases outcome with
  | success => exact ⟨_, append_cap_eq_drop router.message_log _⟩
  | failure k e =>
    by_cases hk : k < (find_destinations rules routing_key).length
    · refine ⟨mkLogEntry routing_key message now
        (find_destinations rules routing_key) "error" (some e), ?_⟩
      unfold process_message
      dsimp only
      rw [if_pos hk]
      exact append_cap_eq_drop router.message_log _
    · refine ⟨mkLogEntry routing_key message now
        (find_destinations rules routing_key) "completed" none, ?_⟩
      unfold process_message
      dsimp only
      rw [if_neg hk]
      exact append_cap_eq_drop router.message_log _

/-! ## The claims -/

/-- C1: a successful `create_resource` followed immediately by
`read_resource` at the id it returned yields exactly the input document
plus the server-assigned fields: `id` (the generated UUID when the input
supplied none, the caller-supplied id when it did), `resourceType` set to
the requested type, and `meta` with `versionId = "1"` and the
`lastUpdated` timestamp. -/
theorem create_then_read (svc : FHIRService) (resource_type : String) (data : Json)
    (freshUuid now : String) (store store' : Store) (doc : Json)
    (h : create_resource svc resource_type data freshUuid now store = .ok (store', doc)) :
    ∃ rid : String,
      doc.get? "id" = some (.str rid) ∧
      read_resource resource_type rid store' = .ok doc ∧
      doc = ((data.set "id" (.str rid)).set "resourceType"
          (.str resource_type)).set "meta"
          (.obj [("versionId", .str "1"), ("lastUpdated", .str now)]) ∧
      (data.get? "id" = none → rid = freshUuid) ∧
      (∀ s : String, data.get? "id" = some (.str s) → s ≠ "" → rid = s) := by
  unfold create_resource at h
  split at h
  · exact absurd h (by simp)
  case isFalse hsupp =>
  split at h
  case isTrue => exact absurd h (by simp)
  case isFalse hobj =>
  have hobj' : data.isObj = true := by simpa using hobj
  split at h
  case h_1 e heq => exact absurd h (by simp)
  case h_2 resource_id heq =>
  split at h
  case isTrue => exact absurd h (by simp)
  case isFalse hany =>
  obtain ⟨hstore, hdoc⟩ : store ++ [⟨resource_id, resource_type, "1", _⟩] = store' ∧ _ = doc := by
    constructor <;> [exact congrArg (·.1) (Except.ok.inj h); exact congrArg (·.2) (Except.ok.inj h)]
  refine ⟨resource_id, ?_, ?_, ?_, ?_, ?_⟩
  · rw [← hdoc, Json.get?_set_ne _ _ _ _ (by decide), Json.get?_set_ne _ _ _ _ (by decide),
      Json.get?_set_self data hobj' _ _]
  · unfold read_resource
    rw [← hstore, find?_append_of_none]
    · rw [List.find?_cons_of_pos _ (by simp)]
      simpa using hdoc
    · refine List.find?_eq_none.2 (fun r hr hpr => ?_)
      have hid : (r.id == resource_id) = true := by
        have := (Bool.and_eq_true _ _).mp hpr
        exact this.2
      have hnone := List.any_eq_false.1 (Bool.of_not_eq_true hany) r hr
      exact hnone hid
  · exact hdoc.symm
  · intro hnone
    unfold pyIdOr at heq
    rw [hnone] at heq
    simpa using (Except.ok.inj heq).symm
  · intro s hs hne
    unfold pyIdOr at heq
    rw [hs] at heq
    simp only [hne, ne_eq, not_false_eq_true, if_true] at heq
    simpa using (Except.ok.inj heq).symm

/-- C1 witness: creating a Patient document with no id in an empty store
and reading it back. -/
theorem create_then_read_witness :
    ∃ rid : String,
      sampleStored.get? "id" = some (.str rid) ∧
      read_resource "Patient" rid [⟨"u1", "Patient", "1", sampleStored⟩]
        = .ok sampleStored ∧
      sampleStored = ((sampleDoc.set "id" (.str rid)).set "resourceType"
          (.str "Patient")).set "meta"
          (.obj [("versionId", .str "1"), ("lastUpdated", .str "T")]) ∧
      (sampleDoc.get? "id" = none → rid = "u1") ∧
      (∀ s : String, sampleDoc.get? "id" = some (.str s) → s ≠ "" → rid = s) :=
  create_then_read ⟨"ehr", ["Patient"]⟩ "Patient" sampleDoc "u1" "T" []
    [⟨"u1", "Patient", "1", sampleStored⟩] sampleStored (by decide)

/-- C2: `update_resource` on an existing `(type, id)` whose stored
version parses as `prior` succeeds and stores/returns a document whose
`meta.versionId` is `str(int(prior) + 1)`, bumping the row's version
column the same way; on a `(type, id)` with no stored row it fails with
the 404 NotFound error. The exception is raised before any session write,
which the embedding reflects by returning only the error — no store value
is produced, so no row is created, modified or re-versioned. -/
theorem update_version_and_notfound :
    (∀ (resource_type resource_id : String) (data : Json) (now : String) (store : Store)
      (row : FHIRResourceStore) (prior : Int),
      store.find? (fun r => r.resource_type == resource_type && r.id == resource_id)
        = some row →
      pyInt? row.version_id = some prior →
      data.isObj = true →
      ∃ store' doc,
        update_resource resource_type resource_id data now store = .ok (store', doc) ∧
        doc.get? "meta" = some (.obj [("versionId", .str (toString (prior + 1))),
          ("lastUpdated", .str now)]) ∧
        ∃ row', store'.find? (fun r => r.resource_type == resource_type && r.id == resource_id)
            = some row' ∧ row'.version_id = toString (prior + 1) ∧ row'.data = doc) ∧
    (∀ (resource_type resource_id : String) (data : Json) (now : String) (store : Store),
      store.find? (fun r => r.resource_type == resource_type && r.id == resource_id) = none →
      update_resource resource_type resource_id data now store =
        .error (.http 404 (resource_type ++ "/" ++ resource_id ++ " not found"))) := by
  constructor
  · intro resource_type resource_id data now store row prior hrow hver hobj
    simp only [update_resource, hrow, hver, hobj, Bool.not_true, Bool.false_eq_true,
      if_false]
    refine ⟨_, _, rfl, ?_, ?_⟩
    · rw [Json.get?_set_self]
      rw [Json.isObj_set, Json.isObj_set]
      exact hobj
    · exact ⟨_, find?_updateFirst_self _ _ store row hrow (by simpa using List.find?_some hrow),
        rfl, rfl⟩
  · intro resource_type resource_id data now store hnone
    unfold update_resource
    rw [hnone]

/-- C3: `update_resource` replaces the stored document wholesale: every
field of the result other than `id`/`resourceType`/`meta` equals the new
input document's field (so anything present only in the previously stored
document is gone, and nothing is merged), while the caller-supplied
`id`, `resourceType` and `meta`/`versionId` values never survive — the
store writes its own id, type, and incremented version, and the document
read back is exactly this result. -/
theorem update_full_replacement (resource_type resource_id : String) (data : Json)
    (now : String) (store store' : Store) (doc : Json)
    (h : update_resource resource_type resource_id data now store = .ok (store', doc)) :
    (∀ m : String, m ≠ "id" → m ≠ "resourceType" → m ≠ "meta" →
      doc.get? m = data.get? m) ∧
    doc.get? "id" = some (.str resource_id) ∧
    doc.get? "resourceType" = some (.str resource_type) ∧
    ∃ row prior,
      store.find? (fun r => r.resource_type == resource_type && r.id == resource_id)
        = some row ∧
      pyInt? row.version_id = some prior ∧
      doc.get? "meta" = some (.obj [("versionId", .str (toString (prior + 1))),
        ("lastUpdated", .str now)]) ∧
      read_resource resource_type resource_id store' = .ok doc := by
  unfold update_resource at h
  split at h
  case h_1 => exact absurd h (by simp)
  case h_2 row hrow =>
  split at h
  case h_1 => exact absurd h (by simp)
  case h_2 prior hver =>
  split at h
  case isTrue => exact absurd h (by simp)
  case isFalse hobj =>
  have hobj' : data.isObj = true := by simpa using hobj
  obtain ⟨hstore, hdoc⟩ : _ = store' ∧ _ = doc := by
    constructor <;> [exact congrArg (·.1) (Except.ok.inj h); exact congrArg (·.2) (Except.ok.inj h)]
  refine ⟨?_, ?_, ?_, row, prior, hrow, hver, ?_, ?_⟩
  · intro m hid hrt hmeta
    rw [← hdoc, Json.get?_set_ne _ _ _ _ (Ne.symm hmeta),
      Json.get?_set_ne _ _ _ _ (Ne.symm hrt), Json.get?_set_ne _ _ _ _ (Ne.symm hid)]
  · rw [← hdoc, Json.get?_set_ne _ _ _ _ (by decide), Json.get?_set_ne _ _ _ _ (by decide),
      Json.get?_set_self data hobj' _ _]
  · rw [← hdoc, Json.get?_set_ne _ _ _ _ (by decide),
      Json.get?_set_self _ (by rw [Json.isObj_set]; exact hobj') _ _]
  · rw [← hdoc, Json.get?_set_self _ (by rw [Json.isObj_set, Json.isObj_set]; exact hobj') _ _]
  · unfold read_resource
    rw [← hstore, find?_updateFirst_self _ _ store row hrow (by simpa using List.find?_some hrow)]
    simpa using hdoc

/-- C3 witness: replacing the stored Patient document with one that only
carries `gender`. -/
theorem update_full_replacement_witness :
    (∀ m : String, m ≠ "id" → m ≠ "resourceType" → m ≠ "meta" →
      sampleStored2.get? m = sampleDoc2.get? m) ∧
    sampleStored2.get? "id" = some (.str "u1") ∧
    sampleStored2.get? "resourceType" = some (.str "Patient") ∧
    ∃ row prior,
      ([⟨"u1", "Patient", "1", sampleStored⟩] : Store).find?
          (fun r => r.resource_type == "Patient" && r.id == "u1") = some row ∧
      pyInt? row.version_id = some prior ∧
      sampleStored2.get? "meta" = some (.obj [("versionId", .str (toString (prior + 1))),
        ("lastUpdated", .str "T2")]) ∧
      read_resource "Patient" "u1" [⟨"u1", "Patient", "2", sampleStored2⟩]
        = .ok sampleStored2 :=
  update_full_replacement "Patient" "u1" sampleDoc2 "T2"
    [⟨"u1", "Patient", "1", sampleStored⟩] [⟨"u1", "Patient", "2", sampleStored2⟩]
    sampleStored2 (by decide)

/-- C4: `search_resources` returns `total` equal to the number of stored
rows of the requested type satisfying the conjunction of the recognized
predicates of every non-null, non-underscore-prefixed parameter;
unrecognized parameter names impose no filter (no error); and `total` is
independent of `limit` and `offset`. -/
theorem search_total_conjunction (resource_type : String)
    (params : List (String × Option String)) (limit offset : Nat) (store : Store) :
    (search_resources resource_type params limit offset store).total =
      (store.filter (fun r => decide (r.resource_type = resource_type ∧
        ∀ kv ∈ params, startsWithUnderscore kv.1 = false → ∀ v, kv.2 = some v →
          paramMatches kv.1 v r.data = true))).length ∧
    (∀ (key value : String) (d : Json),
      key ∉ (["patient", "subject", "status", "identifier", "category", "code"] : List String) →
      paramMatches key value d = true) ∧
    (∀ limit2 offset2 : Nat,
      (search_resources resource_type params limit2 offset2 store).total =
        (search_resources resource_type params limit offset store).total) := by
  refine ⟨?_, ?_, fun _ _ => rfl⟩
  · unfold search_resources
    dsimp only
    congr 1
    apply List.filter_congr
    intro r hr
    rw [Bool.eq_iff_iff]
    simp only [Bool.and_eq_true, beq_iff_eq, List.all_eq_true, decide_eq_true_eq]
    exact and_congr_right fun _ => forall₂_congr fun kv hkv => paramFilter_eq_true_iff r.data kv
  · intro key value d hkey
    simp only [List.mem_cons, List.mem_singleton, not_or] at hkey
    obtain ⟨h1, h2, h3, h4, h5, h6, -⟩ := hkey
    simp [paramMatches, h1, h2, h3, h4, h5, h6]

/-- C5: the router's destination set is exactly the union of the
destinations of every rule whose pattern matches the topic, a pattern
matching iff it has the same number of dot-segments and every non-wildcard
segment equal; concretely, topic `pas.encounter.adt.a01` matches pattern
`pas.*.adt.*` and is routed to exactly that rule's destinations, while the
3-segment `pas.encounter.adt` matches no rule. -/
theorem router_destination_set :
    (∀ (rules : List (String × List String)) (topic dest : String),
      dest ∈ find_destinations rules topic ↔
        ∃ pattern dests, (pattern, dests) ∈ rules ∧
          matches_pattern topic pattern = true ∧ dest ∈ dests) ∧
    matches_pattern "pas.encounter.adt.a01" "pas.*.adt.*" = true ∧
    matches_pattern "pas.encounter.adt" "pas.*.adt.*" = false ∧
    find_destinations ROUTING_RULES "pas.encounter.adt.a01"
      = ["ehr", "lis", "ris", "pharmacy", "billing"] ∧
    find_destinations ROUTING_RULES "pas.encounter.adt" = [] := by
  refine ⟨?_, by decide, by decide, by decide, by decide⟩
  intro rules topic dest
  unfold find_destinations
  rw [List.mem_dedup, mem_foldl_append]
  simp only [List.mem_filter, List.not_mem_nil, false_or]
  constructor
  · rintro ⟨r, ⟨hr, hm⟩, hd⟩
    exact ⟨r.1, r.2, hr, hm, hd⟩
  · rintro ⟨p, ds, hr, hm, hd⟩
    exact ⟨(p, ds), ⟨hr, hm⟩, hd⟩

/-- C6: every `process_message` call increments `messages_received` by
exactly one and appends exactly one log entry (the log then capped to its
most recent 1000); when a forward raises, the entry's status is `error`
with the exception's text and `errors` is incremented by one; otherwise
the status is `completed`, no error is recorded and `errors` is
unchanged. -/
theorem process_message_error_handling (rules : List (String × List String))
    (routing_key : String) (message : Json) (now : String)
    (outcome : ForwardOutcome) (router : MessageRouter) :
    (process_message rules routing_key message now outcome router).stats.messages_received
      = router.stats.messages_received + 1 ∧
    ∃ entry : LogEntry,
      (process_message rules routing_key message now outcome router).message_log =
        (router.message_log ++ [entry]).drop ((router.message_log.length + 1) - 1000) ∧
      entry.routing_key = routing_key ∧
      entry.destinations = find_destinations rules routing_key ∧
      (∀ k e, outcome = .failure k e → k < (find_destinations rules routing_key).length →
        entry.status = "error" ∧ entry.error = some e ∧
        (process_message rules routing_key message now outcome router).stats.errors
          = router.stats.errors + 1) ∧
      ((outcome = .success ∨
          ∃ k e, outcome = .failure k e ∧ ¬ k < (find_destinations rules routing_key).length) →
        entry.status = "completed" ∧ entry.error = none ∧
        (process_message rules routing_key message now outcome router).stats.errors
          = router.stats.errors) := by
  cases outcome with
  | success =>
    refine ⟨rfl, mkLogEntry routing_key message now
      (find_destinations rules routing_key) "completed" none, ?_, rfl, rfl, ?_, ?_⟩
    · exact append_cap_eq_drop router.message_log _
    · intro k e hke
      exact absurd hke (by simp)
    · intro _
      exact ⟨rfl, rfl, rfl⟩
  | failure k e =>
    by_cases hk : k < (find_destinations rules routing_key).length
    · refine ⟨?_, mkLogEntry routing_key message now
        (find_destinations rules routing_key) "error" (some e), ?_, rfl, rfl, ?_, ?_⟩
      · unfold process_message
        dsimp only
        rw [if_pos hk]
      · unfold process_message
        dsimp only
        rw [if_pos hk]
        exact append_cap_eq_drop router.message_log _
      · intro k2 e2 hke hk2
        refine ⟨rfl, ?_, ?_⟩
        · rw [(ForwardOutcome.failure.inj hke.symm).2]
          rfl
        · unfold process_message
          dsimp only
          rw [if_pos hk]
      · rintro (h | ⟨k2, e2, hke, hk2⟩)
        · exact absurd h (by simp)
        · obtain ⟨rfl, rfl⟩ : k2 = k ∧ e2 = e :=
            ⟨(ForwardOutcome.failure.inj hke.symm).1, (ForwardOutcome.failure.inj hke.symm).2⟩
          exact absurd hk hk2
    · refine ⟨?_, mkLogEntry routing_key message now
        (find_destinations rules routing_key) "completed" none, ?_, rfl, rfl, ?_, ?_⟩
      · unfold process_message
        dsimp only
        rw [if_neg hk]
      · unfold process_message
        dsimp only
        rw [if_neg hk]
        exact append_cap_eq_drop router.message_log _
      · intro k2 e2 hke hk2
        obtain ⟨rfl, rfl⟩ : k2 = k ∧ e2 = e :=
          ⟨(ForwardOutcome.failure.inj hke.symm).1, (ForwardOutcome.failure.inj hke.symm).2⟩
        exact absurd hk2 hk
      · intro _
        refine ⟨rfl, rfl, ?_⟩
        unfold process_message
        dsimp only
        rw [if_neg hk]

/-- C7: after any `process_message` call the in-memory message log holds
at most 1000 entries, and it is exactly the most recent 1000 (in arrival
order) of the previous log plus the newly appended entry. -/
theorem message_log_bounded (rules : List (String × List String))
    (routing_key : String) (message : Json) (now : String)
    (outcome : ForwardOutcome) (router : MessageRouter) :
    (process_message rules routing_key message now outcome router).message_log.length ≤ 1000 ∧
    ∃ entry : LogEntry,
      (process_message rules routing_key message now outcome router).message_log =
        (router.message_log ++ [entry]).drop ((router.message_log.length + 1) - 1000) := by
  obtain ⟨entry, hlog⟩ := process_message_log_shape rules routing_key message now outcome router
  refine ⟨?_, entry, hlog⟩
  rw [hlog, List.length_drop, List.length_append]
  simp only [List.length_singleton]
  omega

/-- C8: when the event broker is unreachable (`setup()` caught the
connection failure, leaving no channel), a create or update whose store
write succeeded still reports success: the endpoint returns the stored
document, the write is kept (never rolled back), and the publish attempt
is swallowed — `publish_event` returns with no event delivered and no
exception. -/
theorem publish_swallowed_on_create_update (svc : FHIRService)
    (resource_type resource_id : String) (data : Json)
    (freshUuid eventUuid now : String) (st : ServiceState)
    (hch : st.rabbitmq_channel = none) :
    (∀ (store' : Store) (doc : Json),
      create_resource svc resource_type data freshUuid now st.store = .ok (store', doc) →
      create_endpoint svc resource_type data freshUuid eventUuid now st =
        .ok ({ store := store', rabbitmq_channel := none, published := st.published }, doc)) ∧
    (∀ (store' : Store) (doc : Json),
      update_resource resource_type resource_id data now st.store = .ok (store', doc) →
      update_endpoint svc resource_type resource_id data eventUuid now st =
        .ok ({ store := store', rabbitmq_channel := none, published := st.published }, doc)) := by
  obtain ⟨store0, ch, pub⟩ := st
  cases hch
  constructor
  · intro store' doc h
    simp [create_endpoint, h, publish_event]
  · intro store' doc h
    simp [update_endpoint, h, publish_event]

/-- C8 witness: a create against a service whose broker connection failed
at startup still returns 201 with the stored document. -/
theorem publish_swallowed_witness :
    create_endpoint ⟨"ehr", ["Patient"]⟩ "Patient" sampleDoc "u1" "e1" "T" ⟨[], none, []⟩ =
      .ok (⟨[⟨"u1", "Patient", "1", sampleStored⟩], none, []⟩, sampleStored) :=
  (publish_swallowed_on_create_update ⟨"ehr", ["Patient"]⟩ "Patient" "u1" sampleDoc
      "u1" "e1" "T" ⟨[], none, []⟩ rfl).1
    [⟨"u1", "Patient", "1", sampleStored⟩] sampleStored (by decide)

/-- C9 counterexample: for a concrete service the capability statement
does not advertise exactly the interactions read/update/delete/create/
search with the query engine's recognized parameter names — it lists
`vread` and `search-type` among the interactions, and its search
parameter list is the fixed `_id`/`identifier`/`patient`/`status`, which
omits `subject` even though the engine recognizes `subject` for filtering
(shown by a concrete search). -/
theorem capability_statement_mismatch :
    ¬ (∀ res ∈ (get_capability_statement ⟨"ehr", ["Patient"]⟩ "T").restResource,
        (∀ c ∈ res.interaction,
          c ∈ (["read", "update", "delete", "create", "search"] : List String)) ∧
        res.searchParam.map Prod.fst =
          ["patient", "subject", "status", "identifier", "category", "code"]) ∧
    ((get_capability_statement ⟨"ehr", ["Patient"]⟩ "T").restResource.map
        (fun res => res.interaction))
      = [["read", "vread", "update", "delete", "create", "search-type"]] ∧
    ((get_capability_statement ⟨"ehr", ["Patient"]⟩ "T").restResource.map
        (fun res => res.searchParam.map Prod.fst))
      = [["_id", "identifier", "patient", "status"]] ∧
    (search_resources "Observation" [("subject", some "p1")] 100 0
        [⟨"o1", "Observation", "1",
          .obj [("subject", .obj [("reference", .str "Patient/p1")])]⟩,
         ⟨"o2", "Observation", "1",
          .obj [("subject", .obj [("reference", .str "Patient/p2")])]⟩]).total = 1 := by
  refine ⟨by decide, rfl, rfl, by decide⟩

/-- C9 amended: `get_capability_statement` lists every configured
supported resource type, and for each type advertises exactly the
interactions `read`, `vread`, `update`, `delete`, `create` and
`search-type`, and exactly the fixed search parameters `_id`,
`identifier`, `patient`, `status` (which omit the engine-recognized
`subject`, `category` and `code`). -/
theorem capability_statement_content (svc : FHIRService) (now : String) :
    ((get_capability_statement svc now).restResource.map (fun res => res.type))
      = svc.supported_resources ∧
    ∀ res ∈ (get_capability_statement svc now).restResource,
      res.interaction = ["read", "vread", "update", "delete", "create", "search-type"] ∧
      res.searchParam = [("_id", "token"), ("identifier", "token"),
        ("patient", "reference"), ("status", "token")] := by
  constructor
  · simp only [get_capability_statement, List.map_map]
    exact List.map_id' _
  · intro res hres
    simp only [get_capability_statement, List.mem_map] at hres
    obtain ⟨rt, hrt, rfl⟩ := hres
    exact ⟨rfl, rfl⟩

/-- C10: resource ids are unique across all resource types within a
service: under the primary-key invariant two stored rows with equal ids
are the same row even across types, `create_resource` with a
caller-supplied id equal to any existing row's id fails with the
integrity error instead of storing a second document, and a successful
create preserves the invariant. -/
theorem id_primary_key_unique :
    (∀ store : Store, store.Pairwise (fun r1 r2 => r1.id ≠ r2.id) →
      ∀ r1 ∈ store, ∀ r2 ∈ store, r1.id = r2.id → r1 = r2) ∧
    (∀ (svc : FHIRService) (t2 : String) (data : Json) (freshUuid now : String)
      (store : Store) (r : FHIRResourceStore) (s : String),
      t2 ∈ svc.supported_resources → data.get? "id" = some (.str s) → s ≠ "" →
      r ∈ store → r.id = s →
      create_resource svc t2 data freshUuid now store = .error .integrityError) ∧
    (∀ (svc : FHIRService) (rt : String) (data : Json) (freshUuid now : String)
      (store store' : Store) (doc : Json),
      store.Pairwise (fun r1 r2 => r1.id ≠ r2.id) →
      create_resource svc rt data freshUuid now store = .ok (store', doc) →
      store'.Pairwise (fun r1 r2 => r1.id ≠ r2.id)) := by
  refine ⟨?_, ?_, ?_⟩
  · intro store hp r1 h1 r2 h2 hid
    by_contra hne
    exact hp.forall (fun x y hxy => hxy.symm) h1 h2 hne hid
  · intro svc t2 data freshUuid now store r s hsupp hid hs hr hrid
    have hobj : data.isObj = true := by
      cases data <;> simp [Json.get?] at hid
      rfl
    unfold create_resource
    rw [if_neg (by simpa using hsupp)]
    rw [if_neg (by simp [hobj])]
    have hpy : pyIdOr data freshUuid = .ok s := by
      simp [pyIdOr, hid, hs]
    rw [hpy]
    dsimp only
    rw [if_pos (List.any_eq_true.2 ⟨r, hr, by simpa using hrid⟩)]
  · intro svc rt data freshUuid now store store' doc hp h
    unfold create_resource at h
    split at h
    · exact absurd h (by simp)
    split at h
    · exact absurd h (by simp)
    split at h
    case h_1 => exact absurd h (by simp)
    case h_2 resource_id heq =>
    split at h
    case isTrue => exact absurd h (by simp)
    case isFalse hany =>
    have hstore : store ++ [⟨resource_id, rt, "1", _⟩] = store' :=
      congrArg (·.1) (Except.ok.inj h)
    rw [← hstore]
    rw [List.pairwise_append]
    refine ⟨hp, by simp, ?_⟩
    intro a ha b hb
    simp only [List.mem_singleton] at hb
    subst hb
    intro hae
    have hnot := List.any_eq_false.1 (Bool.of_not_eq_true hany) a ha
    exact hnot (by simpa using hae)
